import Mathlib

/-!
Verification development for the oplog-to-redis tailing pipeline
(`lib/oplog/tail.go` and the change processor exercised by
`lib/oplog/processor_test.go`).

The Go code is shallowly embedded: BSON values become an inductive tree,
Go string-keyed maps become association lists, `bson.MongoTimestamp`
(an int64) becomes `Int`, and the stateful tailing loop becomes a pure
recursion over a script of cursor sessions.  Functions present in
`tail.go` are translated directly from that source; the change processor
(`processOplogEntry` and its helpers), which lives in a file not included
in the source tree (only its test and its call sites are), is modelled
from the specification, with each such definition marked in its doc
comment.
-/

/-- BSON value tree, the embedding of the dynamically typed Go
Go interface values decoded from BSON (design note §9 of the spec:
null, bool, int, string, object-id, array, mapping). -/
inductive BSONValue where
  | null : BSONValue
  | bool (b : Bool) : BSONValue
  | int (n : Int) : BSONValue
  | str (s : String) : BSONValue
  | objectId (bytes : List Nat) : BSONValue
  | array (elems : List BSONValue) : BSONValue
  | doc (fields : List (String × BSONValue)) : BSONValue

/-- Boolean prefix test on character lists. -/
def charsStartWith : List Char → List Char → Bool
  | _, [] => true
  | [], _ :: _ => false
  | c :: cs, d :: ds => c = d && charsStartWith cs ds

/-- Boolean prefix test on strings (embedding of Go `strings.HasPrefix`). -/
def strStartsWith (s p : String) : Bool :=
  charsStartWith s.toList p.toList

/-- Split a character list at the first dot: the part before it and the
part after it.  When there is no dot the whole input is the first part.
Embeds `strings.SplitN(ns, ".", 2)`. -/
def splitAtFirstDot : List Char → List Char × List Char
  | [] => ([], [])
  | c :: rest =>
    if c = '.' then ([], rest)
    else
      let p := splitAtFirstDot rest
      (c :: p.1, p.2)

/-- Database part of a `db.collection` namespace: everything before the
first dot. -/
def databaseSegment (ns : String) : String :=
  String.mk (splitAtFirstDot ns.toList).1

/-- Collection part of a `db.collection` namespace: everything after the
first dot (empty when there is no dot). -/
def collectionSegment (ns : String) : String :=
  String.mk (splitAtFirstDot ns.toList).2

/-- Lowercase hex digit for a value below 16, as produced by the Go
`%x` formatting verb. -/
def hexDigit (n : Nat) : Char :=
  if n < 10 then Char.ofNat (48 + n) else Char.ofNat (87 + n)

/-- Two lowercase hex characters for one byte. -/
def hexByteChars (b : Nat) : List Char :=
  [hexDigit (b / 16 % 16), hexDigit (b % 16)]

/-- Lowercase hex rendering of the bytes of an object id, the embedding of
`bson.ObjectId.Hex()` (Go `fmt.Sprintf("%x", ...)`). -/
def oidHex (bytes : List Nat) : String :=
  String.mk (bytes.map hexByteChars).flatten

/-- Character class of lowercase hexadecimal digits. -/
def isLowerHexDigit (c : Char) : Bool :=
  c.isDigit || ('a' ≤ c && c ≤ 'f')

/-- Embedded `rawOplogEntryID` from `tail.go`: the `o2` sub-document,
holding only the `_id` field.  A missing `_id` decodes to the Go nil
interface, embedded as `none`. -/
structure rawOplogEntryID where
  ID : Option BSONValue

/-- Embedded `rawOplogEntry` from `tail.go`: a raw oplog document as
decoded from Mongo (`ts`, `h`, `v`, `op`, `ns`, `o`, `o2`). -/
structure rawOplogEntry where
  Timestamp : Int
  HistoryID : Int
  MongoVersion : Int
  Operation : String
  Namespace : String
  Doc : List (String × BSONValue)
  Update : rawOplogEntryID

/-- Operation code for inserts (constant from the oplog package). -/
def operationInsert : String := "i"

/-- Operation code for updates (constant from the oplog package). -/
def operationUpdate : String := "u"

/-- Operation code for deletes (constant from the oplog package). -/
def operationRemove : String := "d"

/-- Embedded `oplogEntry`, the normalized entry handed to the change
processor.  The field list follows the struct literals in
`processor_test.go`; `DocID` is a dynamically typed Go value, embedded as an
optional BSON value (`none` for the nil interface). -/
structure oplogEntry where
  DocID : Option BSONValue
  Operation : String
  Namespace : String
  Database : String
  Collection : String
  Data : List (String × BSONValue)
  Timestamp : Int

/-- Whether the entry is an insert (`op.Operation == operationInsert`). -/
def oplogEntry.IsInsert (op : oplogEntry) : Bool :=
  op.Operation == operationInsert

/-- Whether the entry is an update (`op.Operation == operationUpdate`). -/
def oplogEntry.IsUpdate (op : oplogEntry) : Bool :=
  op.Operation == operationUpdate

/-- Whether the entry is a delete (`op.Operation == operationRemove`). -/
def oplogEntry.IsRemove (op : oplogEntry) : Bool :=
  op.Operation == operationRemove

/-- Embedded `parseRawOplogEntry` from `tail.go`: builds the normalized
entry from the raw one (copying operation, timestamp, namespace and
payload), discards entries whose operation is not insert, update or
delete, and extracts the document id from `o2._id` for updates and from
`o._id` otherwise.  Fields not assigned by the Go code (`Database`,
`Collection`, and initially `DocID`) keep their Go zero values, embedded
here as `""` and `none`. -/
def parseRawOplogEntry (rawEntry : rawOplogEntry) : Option oplogEntry :=
  let entry : oplogEntry :=
    { DocID := none
      Operation := rawEntry.Operation
      Namespace := rawEntry.Namespace
      Database := ""
      Collection := ""
      Data := rawEntry.Doc
      Timestamp := rawEntry.Timestamp }
  if !(entry.IsInsert || entry.IsUpdate || entry.IsRemove) then
    none
  else if rawEntry.Operation == operationUpdate then
    some { entry with DocID := rawEntry.Update.ID }
  else
    some { entry with DocID := List.lookup "_id" rawEntry.Doc }

/-- Top-level keys of a payload mapping, in association-list order. -/
def mapKeys (m : List (String × BSONValue)) : List String :=
  m.map Prod.fst

/-- Modelled from the spec: the affected-field contribution of one update
value of one update operator (spec §4.4).  The spec presupposes the value of an
update-operator key is itself a mapping, whose top-level keys are
collected; a non-mapping value contributes nothing.  Part of the change
processor, whose source file is not in the tree. -/
def subKeysList : BSONValue → List String
  | BSONValue.doc m => mapKeys m
  | _ => []

/-- Modelled from the spec: the replacement-update heuristic of §4.4 —
an update payload is a full replacement document exactly when none of
its top-level keys begins with a dollar sign.  Part of the change
processor, whose source file is not in the tree. -/
def updateIsReplace (data : List (String × BSONValue)) : Bool :=
  data.all (fun kv => !(strStartsWith kv.1 "$"))

/-- Modelled from the spec: field accumulation for an operator update
(spec §4.4) — for every top-level key beginning with a dollar sign other
than the `$v` schema-version key, accumulate the top-level keys of its
sub-mapping; `$v` contributes nothing.  Part of the change processor,
whose source file is not in the tree. -/
def fieldsForOperatorUpdate : List (String × BSONValue) → List String
  | [] => []
  | kv :: rest =>
    if kv.1 = "$v" then fieldsForOperatorUpdate rest
    else if strStartsWith kv.1 "$" then subKeysList kv.2 ++ fieldsForOperatorUpdate rest
    else fieldsForOperatorUpdate rest

/-- Modelled from the spec: the affected-field set of a change message
(spec §4.4) — top-level keys of the document for inserts, the
replacement/operator discrimination for updates, and the empty list for
deletes.  Part of the change processor, whose source file is not in the
tree. -/
def changedFields (op : oplogEntry) : List String :=
  if op.IsInsert then mapKeys op.Data
  else if op.IsUpdate then
    if updateIsReplace op.Data then mapKeys op.Data
    else fieldsForOperatorUpdate op.Data
  else []

/-- Modelled from the spec: the event-code mapping of §4.4
(`i → i`, `u → u`, `d → r`); other codes never reach the processor and
map to the empty string.  Part of the change processor, whose source
file is not in the tree. -/
def eventCode (op : oplogEntry) : String :=
  if op.IsInsert then "i"
  else if op.IsUpdate then "u"
  else if op.IsRemove then "r"
  else ""

/-- Modelled from the spec: `redispub.Publication` (its package is not in
the source tree), the record handed to the publisher.  The Go `Msg`
field holds the change message serialized as JSON; it is embedded
structurally as the event code, the `_id`-carrying document, and the
affected-field list (`e`, `d`, `f`), the decoded view that
`processor_test.go` compares against. -/
structure Publication where
  CollectionChannel : String
  SpecificChannel : String
  MsgEvent : String
  MsgDoc : List (String × BSONValue)
  MsgFields : List String
  OplogTimestamp : Int

/-- Modelled from the spec: assembly of the publication for one entry
(spec §4.4–§4.5): the collection channel is the namespace, the specific
channel appends `::` and the stringified id, the message carries the
event code, a document holding exactly the `_id` key, and the affected
fields, and the oplog timestamp is forwarded. -/
def mkPub (op : oplogEntry) (idForMessage : BSONValue) (idForChannel : String) : Publication :=
  { CollectionChannel := op.Namespace
    SpecificChannel := op.Namespace ++ "::" ++ idForChannel
    MsgEvent := eventCode op
    MsgDoc := [("_id", idForMessage)]
    MsgFields := changedFields op
    OplogTimestamp := op.Timestamp }

/-- Modelled from the spec: `processOplogEntry`, the change processor
(its source file is not in the tree; its behavior is fixed by spec
§4.3–§4.4 and `processor_test.go`).  Entries of `system.*` collections
(the collection segment of the namespace, per §4.3 rule 2) produce no
publication and no error; a string id is used verbatim and an object id
becomes the tagged mapping with its lowercase hex rendering; any other
id yields the error `op.ID was not a string or ObjectID` and no
publication.  The pair returned embeds the Go pair of publication pointer and
error. -/
def processOplogEntry (op : oplogEntry) : Option Publication × Option String :=
  if strStartsWith (collectionSegment op.Namespace) "system." then
    (none, none)
  else
    match op.DocID with
    | some (BSONValue.str s) =>
      (some (mkPub op (BSONValue.str s) s), none)
    | some (BSONValue.objectId bytes) =>
      (some (mkPub op
        (BSONValue.doc [("$type", BSONValue.str "oid"), ("$value", BSONValue.str (oidHex bytes))])
        (oidHex bytes)), none)
    | _ => (none, some "op.ID was not a string or ObjectID")

/-- One inner-loop step of `tailOnce` minus the channel plumbing: parse
the raw entry, drop it when the classifier rejects it, otherwise run the
change processor. -/
def processRawEntry (raw : rawOplogEntry) : Option Publication × Option String :=
  match parseRawOplogEntry raw with
  | none => (none, none)
  | some entry => processOplogEntry entry

/-- Modelled from the spec: union of affected fields over the operator
keys of an operator-update payload (spec P3): for every top-level key
other than `$v`, the top-level keys of its sub-mapping (a non-mapping
value, which P3 presupposes does not occur, contributes nothing). -/
def subDocKeys : BSONValue → Finset String
  | BSONValue.doc m => (mapKeys m).toFinset
  | _ => ∅

/-- Modelled from the spec: the field set P3 prescribes for an operator
update — the union over every top-level key `k` other than `$v` of the
top-level keys of `payload[k]`. -/
def operatorUpdateKeys : List (String × BSONValue) → Finset String
  | [] => ∅
  | kv :: rest =>
    if kv.1 = "$v" then operatorUpdateKeys rest
    else subDocKeys kv.2 ∪ operatorUpdateKeys rest

/-- Wraparound of an integer into the two-complement int64 range,
making the 64-bit Go arithmetic explicit. -/
def int64wrap (x : Int) : Int :=
  (x + 2 ^ 63) % 2 ^ 64 - 2 ^ 63

/-- Result of `redispub.LastProcessedTimestamp` on success: the persisted
oplog timestamp and the wall-clock hint (seconds) derived from its upper
32 bits. -/
structure RedisCheckpoint where
  ts : Int
  tsTime : Int

/-- Embedded fallback tail of `getStartTime` from `tail.go`: when the
Redis checkpoint is unusable, use the timestamp of the most recent oplog
entry; when that query errors too, use the current Unix seconds shifted
left 32 bits (as an int64). -/
def getStartTimeFallback (now : Int) (lastOplogEntryTs : Option Int) : Int :=
  match lastOplogEntryTs with
  | some ts => ts
  | none => int64wrap (now * 2 ^ 32)

/-- Embedded `getStartTime` from `tail.go`.  The two fallible reads are
passed as `Option` results: `redisRead` embeds
`redispub.LastProcessedTimestamp` (`none` for any error, including the
missing-key `redis.Nil`, which the Go code distinguishes only for
logging), and `lastOplogEntryTs` embeds the injected
`getTimestampOfLastOplogEntry` query.  `now` and `maxCatchUp` are
wall-clock seconds; the Go staleness test
`tsTime.After(time.Now().Add(-MaxCatchUp))` becomes
`now - maxCatchUp < tsTime`. -/
def getStartTime (redisRead : Option RedisCheckpoint) (now maxCatchUp : Int)
    (lastOplogEntryTs : Option Int) : Int :=
  match redisRead with
  | some cp =>
    if now - maxCatchUp < cp.tsTime then cp.ts
    else getStartTimeFallback now lastOplogEntryTs
  | none => getStartTimeFallback now lastOplogEntryTs

/-- How one cursor iteration of the `tailOnce` polling loop ends after
the iterator stops yielding: an iterator error (`iter.Err() != nil`), a
poll timeout (`iter.Timeout()`), or cursor expiry (neither). -/
inductive CursorOutcome where
  | cursorError : CursorOutcome
  | cursorTimeout : CursorOutcome
  | cursorExpiry : CursorOutcome
deriving DecidableEq, Repr

/-- One iteration of the `tailOnce` polling loop as scripted input: the
raw entries the iterator yields before `iter.Next` returns false, and
how the iteration ends. -/
structure CursorSession where
  entries : List rawOplogEntry
  outcome : CursorOutcome

/-- Mutable state of one `tailOnce` invocation: the `lastTimestamp`
variable (Go zero value `0` before any entry is yielded) and the
publications sent on the output channel so far. -/
structure TailState where
  lastTimestamp : Int
  out : List Publication

/-- The publication the inner loop emits for one raw entry, if any:
`nil` parses and `nil` publications are skipped with `continue`. -/
def pubOf (raw : rawOplogEntry) : Option Publication :=
  (processRawEntry raw).1

/-- One pass of the inner `for iter.Next(&result)` loop body:
`lastTimestamp` is assigned the timestamp of the raw entry before any
filtering, then the entry is parsed and processed and a resulting
publication is appended to the output. -/
def stepEntry (st : TailState) (raw : rawOplogEntry) : TailState :=
  { lastTimestamp := raw.Timestamp
    out :=
      match pubOf raw with
      | some pub => st.out ++ [pub]
      | none => st.out }

/-- Draining one cursor: the inner loop body folded over the entries the
iterator yields in this iteration. -/
def drainCursor (st : TailState) (entries : List rawOplogEntry) : TailState :=
  entries.foldl stepEntry st

/-- How a `tailOnce` invocation ends: through the stop select, through
an iterator error, or because the scripted input ran out. -/
inductive TailOnceEnd where
  | endedByStop : TailOnceEnd
  | endedByError : TailOnceEnd
  | scriptExhausted : TailOnceEnd
deriving DecidableEq, Repr

/-- Observable result of one `tailOnce` invocation: final state, the
lower bounds of the re-issued `ts > lastTimestamp` queries in order,
the number of cursor iterations consumed, and how it ended. -/
structure TailOnceResult where
  state : TailState
  requeries : List Int
  sessionsConsumed : Nat
  ending : TailOnceEnd

/-- Whether the stop signal is available to the non-blocking select:
the signal raised after `n` entries were yielded is pending once the
yield count has reached `n` (and stays pending). -/
def stopPending (stopRaisedAfter : Option Nat) (yieldedCount : Nat) : Bool :=
  match stopRaisedAfter with
  | none => false
  | some n => n ≤ yieldedCount

/-- Embedded polling loop of `tailOnce` from `tail.go`, driven by a
script of cursor sessions.  Each outer iteration first runs the
non-blocking stop select, then drains the cursor, then inspects the
iterator: an error closes the iterator and returns, a timeout keeps the
cursor and loops, and expiry re-issues the query with the current
`lastTimestamp` as strict lower bound before looping.  `stopRaisedAfter`
scripts when the stop signal is raised, counted in globally yielded
entries; `yielded` is the running count. -/
def runTailOnce (stopRaisedAfter : Option Nat) :
    List CursorSession → TailState → Nat → TailOnceResult
  | sessions, st, yielded =>
    if stopPending stopRaisedAfter yielded then
      { state := st, requeries := [], sessionsConsumed := 0, ending := TailOnceEnd.endedByStop }
    else
      match sessions with
      | [] =>
        { state := st, requeries := [], sessionsConsumed := 0,
          ending := TailOnceEnd.scriptExhausted }
      | s :: rest =>
        let st2 := drainCursor st s.entries
        let yielded2 := yielded + s.entries.length
        match s.outcome with
        | CursorOutcome.cursorError =>
          { state := st2, requeries := [], sessionsConsumed := 1,
            ending := TailOnceEnd.endedByError }
        | CursorOutcome.cursorTimeout =>
          let r := runTailOnce stopRaisedAfter rest st2 yielded2
          { r with sessionsConsumed := r.sessionsConsumed + 1 }
        | CursorOutcome.cursorExpiry =>
          let r := runTailOnce stopRaisedAfter rest st2 yielded2
          { state := r.state, requeries := st2.lastTimestamp :: r.requeries,
            sessionsConsumed := r.sessionsConsumed + 1, ending := r.ending }

/-- Embedded `tailOnce`: the initial query uses `ts > startTime`, while
the `lastTimestamp` variable is separately initialized to the
`bson.MongoTimestamp` zero value `0` (`var lastTimestamp`), independent
of `startTime`; the polling loop then runs over the scripted cursor
sessions with no entries yielded yet. -/
def tailOnce (startTime : Int) (stopRaisedAfter : Option Nat)
    (sessions : List CursorSession) : TailOnceResult :=
  runTailOnce stopRaisedAfter sessions { lastTimestamp := 0, out := [] } 0

/-- The strict lower bounds of every oplog query one `tailOnce`
invocation issues: the initial `ts > startTime` query followed by the
re-issued queries. -/
def tailOnceQueryBounds (startTime : Int) (stopRaisedAfter : Option Nat)
    (sessions : List CursorSession) : List Int :=
  startTime :: (tailOnce startTime stopRaisedAfter sessions).requeries

/-- What the `Tail` retry loop does after `tailOnce` returns: exit
cleanly, or sleep the one-second `requeryDuration` and start another
tailing iteration. -/
inductive TailAction where
  | exitClean : TailAction
  | sleepRetry : TailAction
deriving DecidableEq, Repr

/-- Embedded tail of the `Tail` retry loop body from `tail.go`: after
`tailOnce` returns, the loop returns when `wasStopped` is set and
otherwise sleeps one second and retries.  When `tailOnce` returned
through the stop select, the stop goroutine had already set `wasStopped`
before sending on `childStopC` (the channel send orders the write before
the receive in the select), so `wasStopped` is true at this check. -/
def afterTailOnce (wasStopped : Bool) : TailAction :=
  if wasStopped then TailAction.exitClean else TailAction.sleepRetry

/-- All raw entries the iterator has yielded once the cursor session `s`
following the sessions `pre` has been drained. -/
def consumedEntries (pre : List CursorSession) (s : CursorSession) : List rawOplogEntry :=
  (pre.map CursorSession.entries).flatten ++ s.entries

/-- Number of cursor expiries, hence of re-issued queries, among a list
of cursor sessions. -/
def countExpiries (sessions : List CursorSession) : Nat :=
  (sessions.filter (fun s => s.outcome == CursorOutcome.cursorExpiry)).length

/-- The timestamp of the last entry of a yielded-entry list, or the
default `d` when none was yielded: the value of the `lastTimestamp`
variable after draining those entries starting from `d`. -/
def lastTsOrD (entries : List rawOplogEntry) (d : Int) : Int :=
  entries.foldl (fun _ e => e.Timestamp) d

/-- Concrete raw insert entry on `foo.bar` used as witness input. -/
def sampleRaw (ts : Int) : rawOplogEntry :=
  { Timestamp := ts, HistoryID := 0, MongoVersion := 2, Operation := "i",
    Namespace := "foo.bar",
    Doc := [("_id", BSONValue.str "someid"), ("some", BSONValue.str "field")],
    Update := { ID := none } }

/-- The publication the pipeline emits for `sampleRaw ts`. -/
def sampleRawPub (ts : Int) : Publication :=
  { CollectionChannel := "foo.bar", SpecificChannel := "foo.bar::someid",
    MsgEvent := "i", MsgDoc := [("_id", BSONValue.str "someid")],
    MsgFields := ["_id", "some"], OplogTimestamp := ts }

/-- Concrete operator-update entry, the `Non-replacement update` vector
of `processor_test.go`. -/
def opUpdateSample : oplogEntry :=
  { DocID := some (BSONValue.str "someid")
    Operation := "u"
    Namespace := "foo.bar"
    Database := "foo"
    Collection := "bar"
    Data := [("$v", BSONValue.str "1.2.3"),
             ("$set", BSONValue.doc [("a", BSONValue.str "foo"), ("b", BSONValue.str "foo")]),
             ("$unset", BSONValue.doc [("c", BSONValue.str "foo")])]
    Timestamp := 1234 }

/-- The publication emitted for `opUpdateSample`. -/
def opUpdateSamplePub : Publication :=
  { CollectionChannel := "foo.bar", SpecificChannel := "foo.bar::someid",
    MsgEvent := "u", MsgDoc := [("_id", BSONValue.str "someid")],
    MsgFields := ["a", "b", "c"], OplogTimestamp := 1234 }

/-- The twelve bytes of the object id `deadbeefdeadbeefdeadbeef`. -/
def oidSampleBytes : List Nat :=
  [222, 173, 190, 239, 222, 173, 190, 239, 222, 173, 190, 239]

/-- Concrete insert entry with an object id, the `ObjectID id` vector of
`processor_test.go`. -/
def oidSampleEntry : oplogEntry :=
  { DocID := some (BSONValue.objectId oidSampleBytes)
    Operation := "i"
    Namespace := "foo.bar"
    Database := "foo"
    Collection := "bar"
    Data := [("some", BSONValue.str "field")]
    Timestamp := 1234 }

/-- The publication emitted for `oidSampleEntry`. -/
def oidSamplePub : Publication :=
  { CollectionChannel := "foo.bar", SpecificChannel := "foo.bar::deadbeefdeadbeefdeadbeef",
    MsgEvent := "i",
    MsgDoc := [("_id", BSONValue.doc [("$type", BSONValue.str "oid"),
                ("$value", BSONValue.str "deadbeefdeadbeefdeadbeef")])],
    MsgFields := ["some"], OplogTimestamp := 1234 }

/-- Concrete delete entry, the `Delete` vector of `processor_test.go`. -/
def deleteSample : oplogEntry :=
  { DocID := some (BSONValue.str "someid")
    Operation := "d"
    Namespace := "foo.bar"
    Database := "foo"
    Collection := "bar"
    Data := []
    Timestamp := 1234 }

/-- The publication emitted for `deleteSample`. -/
def deleteSamplePub : Publication :=
  { CollectionChannel := "foo.bar", SpecificChannel := "foo.bar::someid",
    MsgEvent := "r", MsgDoc := [("_id", BSONValue.str "someid")],
    MsgFields := [], OplogTimestamp := 1234 }

/-- The normalized entry `parseRawOplogEntry` produces for `badIdRaw`:
an insert on `foo.bar` whose id is the integer 1234, as in the
`Unsupported id type` vector of `processor_test.go`. -/
def badIdParsed : oplogEntry :=
  { DocID := some (BSONValue.int 1234)
    Operation := "i"
    Namespace := "foo.bar"
    Database := ""
    Collection := ""
    Data := [("_id", BSONValue.int 1234), ("some", BSONValue.str "field")]
    Timestamp := 1234 }

/-- Concrete raw entry whose parse yields `badIdParsed`:
an insert on `foo.bar` whose `_id` is the integer 1234. -/
def badIdRaw : rawOplogEntry :=
  { Timestamp := 1234, HistoryID := 0, MongoVersion := 2, Operation := "i",
    Namespace := "foo.bar",
    Doc := [("_id", BSONValue.int 1234), ("some", BSONValue.str "field")],
    Update := { ID := none } }

/-- Concrete raw entry on the system collection `foo.system.indexes`. -/
def systemRaw : rawOplogEntry :=
  { Timestamp := 1234, HistoryID := 0, MongoVersion := 2, Operation := "i",
    Namespace := "foo.system.indexes",
    Doc := [("_id", BSONValue.str "someid"), ("some", BSONValue.str "field")],
    Update := { ID := none } }

/-- The normalized entry `parseRawOplogEntry` produces for `sampleRaw ts`. -/
def sampleParsed (ts : Int) : oplogEntry :=
  { DocID := some (BSONValue.str "someid")
    Operation := "i"
    Namespace := "foo.bar"
    Database := ""
    Collection := ""
    Data := [("_id", BSONValue.str "someid"), ("some", BSONValue.str "field")]
    Timestamp := ts }

/-- Whether a decoded document id is of a type the change processor
rejects: anything other than a string or an object id (including the
missing/nil case). -/
def unsupportedID : Option BSONValue → Bool
  | some (BSONValue.str _) => false
  | some (BSONValue.objectId _) => false
  | _ => true

lemma parseRawOplogEntry_fields (raw : rawOplogEntry) (entry : oplogEntry)
    (hp : parseRawOplogEntry raw = some entry) :
    entry.Operation = raw.Operation ∧ entry.Namespace = raw.Namespace ∧
    entry.Database = "" ∧ entry.Collection = "" ∧ entry.Data = raw.Doc ∧
    entry.Timestamp = raw.Timestamp := by
  simp only [parseRawOplogEntry] at hp
  split at hp
  · exact absurd hp (by simp)
  · split at hp <;>
    · obtain rfl := Option.some.inj hp
      exact ⟨rfl, rfl, rfl, rfl, rfl, rfl⟩

lemma splitAtFirstDot_append (l r : List Char) (h : '.' ∉ l) :
    splitAtFirstDot (l ++ '.' :: r) = (l, r) := by
  induction l with
  | nil => simp [splitAtFirstDot]
  | cons c cs ih =>
    have hc : ¬(c = '.') := fun hc => h (hc ▸ List.mem_cons_self c cs)
    have hcs : '.' ∉ cs := fun hm => h (List.mem_cons_of_mem c hm)
    simp [splitAtFirstDot, hc, ih hcs]

lemma processOplogEntry_pub (e : oplogEntry) (pub : Publication) (o : Option String)
    (hp : processOplogEntry e = (some pub, o)) :
    pub.CollectionChannel = e.Namespace
    ∧ pub.MsgEvent = eventCode e
    ∧ pub.MsgFields = changedFields e
    ∧ pub.OplogTimestamp = e.Timestamp
    ∧ (∀ s, e.DocID = some (BSONValue.str s) →
        pub.SpecificChannel = e.Namespace ++ "::" ++ s
        ∧ pub.MsgDoc = [("_id", BSONValue.str s)])
    ∧ (∀ b, e.DocID = some (BSONValue.objectId b) →
        pub.SpecificChannel = e.Namespace ++ "::" ++ oidHex b
        ∧ pub.MsgDoc = [("_id", BSONValue.doc
            [("$type", BSONValue.str "oid"), ("$value", BSONValue.str (oidHex b))])]) := by
  unfold processOplogEntry at hp
  by_cases hsys : strStartsWith (collectionSegment e.Namespace) "system." = true
  · simp [hsys] at hp
  · simp only [Bool.not_eq_true] at hsys
    simp only [hsys, Bool.false_eq_true, if_false] at hp
    cases hid : e.DocID with
    | none => rw [hid] at hp; simp at hp
    | some v =>
      rw [hid] at hp
      cases v with
      | str s =>
        simp only [Prod.mk.injEq] at hp
        obtain ⟨hpub, -⟩ := hp
        obtain rfl := Option.some.inj hpub
        refine ⟨rfl, rfl, rfl, rfl, ?_, ?_⟩
        · intro s2 hs2
          have h2 := Option.some.inj hs2
          injection h2 with h3
          subst h3
          exact ⟨rfl, rfl⟩
        · intro b hb
          simp at hb
      | objectId bytes =>
        simp only [Prod.mk.injEq] at hp
        obtain ⟨hpub, -⟩ := hp
        obtain rfl := Option.some.inj hpub
        refine ⟨rfl, rfl, rfl, rfl, ?_, ?_⟩
        · intro s2 hs2
          simp at hs2
        · intro b hb
          have h2 := Option.some.inj hb
          injection h2 with h3
          subst h3
          exact ⟨rfl, rfl⟩
      | null => simp at hp
      | bool b => simp at hp
      | int n => simp at hp
      | array elems => simp at hp
      | doc fields => simp at hp

/-- C3: `getStartTime` returns the persisted checkpoint exactly when the
Redis read succeeds and the wall-clock hint of the checkpoint is within
`MaxCatchUp` of now; on a missing/errored read or a stale checkpoint it
returns the timestamp of the most recent oplog entry; and when that
query fails too it returns the current Unix seconds shifted left 32
bits (which for present-day times is exactly `now * 2 ^ 32`). -/
theorem C3_getStartTime_cases (redisRead : Option RedisCheckpoint) (now maxCatchUp : Int)
    (mongoTs : Option Int) :
    (∀ cp, redisRead = some cp → now - maxCatchUp < cp.tsTime →
      getStartTime redisRead now maxCatchUp mongoTs = cp.ts)
    ∧ (∀ cp ts0, redisRead = some cp → ¬(now - maxCatchUp < cp.tsTime) → mongoTs = some ts0 →
      getStartTime redisRead now maxCatchUp mongoTs = ts0)
    ∧ (∀ ts0, redisRead = none → mongoTs = some ts0 →
      getStartTime redisRead now maxCatchUp mongoTs = ts0)
    ∧ (∀ cp, redisRead = some cp → ¬(now - maxCatchUp < cp.tsTime) → mongoTs = none →
      getStartTime redisRead now maxCatchUp mongoTs = int64wrap (now * 2 ^ 32))
    ∧ (redisRead = none → mongoTs = none →
      getStartTime redisRead now maxCatchUp mongoTs = int64wrap (now * 2 ^ 32))
    ∧ (0 ≤ now → now < 2 ^ 31 → int64wrap (now * 2 ^ 32) = now * 2 ^ 32) := by
  refine ⟨?_, ?_, ?_, ?_, ?_, ?_⟩
  · intro cp hcp hfresh
    subst hcp
    simp [getStartTime, hfresh]
  · intro cp ts0 hcp hstale hts
    subst hcp; subst hts
    simp [getStartTime, getStartTimeFallback, hstale]
  · intro ts0 hcp hts
    subst hcp; subst hts
    simp [getStartTime, getStartTimeFallback]
  · intro cp hcp hstale hts
    subst hcp; subst hts
    simp [getStartTime, getStartTimeFallback, hstale]
  · intro hcp hts
    subst hcp; subst hts
    simp [getStartTime, getStartTimeFallback]
  · intro h0 h31
    have e32 : (2 : Int) ^ 32 = 4294967296 := by norm_num
    have e31 : (2 : Int) ^ 31 = 2147483648 := by norm_num
    have e63 : (2 : Int) ^ 63 = 9223372036854775808 := by norm_num
    have e64 : (2 : Int) ^ 64 = 18446744073709551616 := by norm_num
    rw [e31] at h31
    unfold int64wrap
    rw [e32, e63, e64]
    omega

/-- Witness for C3 at concrete inputs: a fresh checkpoint is returned
as-is; a stale checkpoint falls back to the oplog-end timestamp; with
both reads failed the shifted wall clock is returned. -/
theorem C3_witness :
    getStartTime (some { ts := 42, tsTime := 100 }) 110 20 (some 77) = 42
    ∧ getStartTime (some { ts := 42, tsTime := 100 }) 130 20 (some 77) = 77
    ∧ getStartTime none 130 20 none = int64wrap (130 * 2 ^ 32)
    ∧ int64wrap (130 * 2 ^ 32) = 130 * 2 ^ 32 := by
  refine ⟨?_, ?_, ?_, ?_⟩
  · exact (C3_getStartTime_cases (some { ts := 42, tsTime := 100 }) 110 20 (some 77)).1
      { ts := 42, tsTime := 100 } rfl (by norm_num)
  · exact (C3_getStartTime_cases (some { ts := 42, tsTime := 100 }) 130 20 (some 77)).2.1
      { ts := 42, tsTime := 100 } 77 rfl (by norm_num) rfl
  · exact (C3_getStartTime_cases none 130 20 none).2.2.2.2.1 rfl rfl
  · exact (C3_getStartTime_cases none 130 20 none).2.2.2.2.2 (by norm_num) (by norm_num)

/-- C5: an entry whose namespace has a collection segment starting with
`system.` produces no publication and no error from the parse-and-process
pipeline, whatever its operation code. -/
theorem C5_system_collection_filter (raw : rawOplogEntry)
    (h : strStartsWith (collectionSegment raw.Namespace) "system." = true) :
    processRawEntry raw = (none, none) := by
  unfold processRawEntry
  cases hp : parseRawOplogEntry raw with
  | none => rfl
  | some entry =>
    have hns : entry.Namespace = raw.Namespace := (parseRawOplogEntry_fields raw entry hp).2.1
    show processOplogEntry entry = (none, none)
    simp [processOplogEntry, hns, h]

/-- Witness for C5: the `Index update` vector of `processor_test.go`
(insert on `foo.system.indexes`) yields no publication and no error. -/
theorem C5_witness : processRawEntry systemRaw = (none, none) :=
  C5_system_collection_filter systemRaw rfl

/-- C7: whenever the processor emits a publication, a delete entry is
published with event code `r` and an empty field list, an insert with
event code `i` and an update with event code `u`. -/
theorem C7_event_code_mapping (e : oplogEntry) (pub : Publication) (o : Option String)
    (hp : processOplogEntry e = (some pub, o)) :
    (e.Operation = operationRemove → pub.MsgEvent = "r" ∧ pub.MsgFields = [])
    ∧ (e.Operation = operationInsert → pub.MsgEvent = "i")
    ∧ (e.Operation = operationUpdate → pub.MsgEvent = "u") := by
  obtain ⟨-, hev, hfi, -, -, -⟩ := processOplogEntry_pub e pub o hp
  refine ⟨?_, ?_, ?_⟩
  · intro hop
    constructor
    · rw [hev]
      simp [eventCode, oplogEntry.IsInsert, oplogEntry.IsUpdate, oplogEntry.IsRemove, hop,
        operationInsert, operationUpdate, operationRemove]
    · rw [hfi]
      simp [changedFields, oplogEntry.IsInsert, oplogEntry.IsUpdate, hop,
        operationInsert, operationUpdate, operationRemove]
  · intro hop
    rw [hev]
    simp [eventCode, oplogEntry.IsInsert, hop, operationInsert]
  · intro hop
    rw [hev]
    simp [eventCode, oplogEntry.IsInsert, oplogEntry.IsUpdate, hop,
      operationInsert, operationUpdate]

/-- Witness for C7: the `Delete` vector of `processor_test.go` is
published with event code `r` and no fields. -/
theorem C7_witness :
    deleteSamplePub.MsgEvent = "r" ∧ deleteSamplePub.MsgFields = [] :=
  (C7_event_code_mapping deleteSample deleteSamplePub none rfl).1 rfl

/-- Counterexample to C8: `parseRawOplogEntry` does not split the
namespace — for the accepted insert `sampleRaw 1234` on `foo.bar` the
database and collection fields of the normalized entry are the empty string,
not `foo` and `bar` (the parts before and after the first dot). -/
theorem C8_counterexample :
    (parseRawOplogEntry (sampleRaw 1234)).map oplogEntry.Database = some ""
    ∧ (parseRawOplogEntry (sampleRaw 1234)).map oplogEntry.Collection = some ""
    ∧ databaseSegment (sampleRaw 1234).Namespace = "foo"
    ∧ collectionSegment (sampleRaw 1234).Namespace = "bar"
    ∧ ("" : String) ≠ "foo"
    ∧ ("" : String) ≠ "bar" :=
  ⟨rfl, rfl, rfl, rfl, by decide, by decide⟩

/-- C8 as amended: normalization copies `ns` verbatim into the
namespace field and leaves the database and collection fields at the Go
zero value (the empty string); the split at the first dot is not
performed by `parseRawOplogEntry` but only by the segment functions
applied to the namespace downstream (the system-collection check of the summarizer), and those functions do split at the first dot: for a namespace
`l ++ "." ++ r` with no dot in `l`, the database segment is `l` and the
collection segment is `r`. -/
theorem C8_amended (raw : rawOplogEntry) (entry : oplogEntry)
    (hp : parseRawOplogEntry raw = some entry) :
    entry.Namespace = raw.Namespace
    ∧ entry.Database = ""
    ∧ entry.Collection = ""
    ∧ (∀ (l r : List Char), '.' ∉ l →
        databaseSegment (String.mk (l ++ '.' :: r)) = String.mk l
        ∧ collectionSegment (String.mk (l ++ '.' :: r)) = String.mk r) := by
  obtain ⟨-, hns, hdb, hcoll, -, -⟩ := parseRawOplogEntry_fields raw entry hp
  refine ⟨hns, hdb, hcoll, ?_⟩
  intro l r h
  unfold databaseSegment collectionSegment
  rw [show (String.mk (l ++ '.' :: r)).toList = l ++ '.' :: r from rfl,
    splitAtFirstDot_append l r h]
  exact ⟨rfl, rfl⟩

/-- Witness for the amended C8 at the concrete insert `sampleRaw 3`:
the namespace is copied and the database/collection fields are empty,
and the segment functions split `foo.bar` into `foo` and `bar`. -/
theorem C8_witness :
    (sampleParsed 3).Namespace = "foo.bar"
    ∧ (sampleParsed 3).Database = ""
    ∧ (sampleParsed 3).Collection = ""
    ∧ databaseSegment (String.mk ("foo".toList ++ '.' :: "bar".toList)) = String.mk "foo".toList
    ∧ collectionSegment (String.mk ("foo".toList ++ '.' :: "bar".toList)) = String.mk "bar".toList := by
  have h := C8_amended (sampleRaw 3) (sampleParsed 3) rfl
  have h4 := h.2.2.2 "foo".toList "bar".toList (by decide)
  exact ⟨h.1, h.2.1, h.2.2.1, h4.1, h4.2⟩

lemma fieldsForOperatorUpdate_toFinset (data : List (String × BSONValue))
    (h : ∀ kv ∈ data, strStartsWith kv.1 "$" = true) :
    (fieldsForOperatorUpdate data).toFinset = operatorUpdateKeys data := by
  induction data with
  | nil => rfl
  | cons kv rest ih =>
    have hrest : ∀ kv2 ∈ rest, strStartsWith kv2.1 "$" = true :=
      fun kv2 hm => h kv2 (List.mem_cons_of_mem kv hm)
    by_cases hv : kv.1 = "$v"
    · simp [fieldsForOperatorUpdate, operatorUpdateKeys, hv, ih hrest]
    · have hd : strStartsWith kv.1 "$" = true := h kv (List.mem_cons_self kv rest)
      simp only [fieldsForOperatorUpdate, operatorUpdateKeys, hv, hd, if_true, if_false,
        List.toFinset_append, ih hrest]
      cases kv.2 <;> simp [subKeysList, subDocKeys]

/-- C1: for an update entry the processor publishes, the field set is
the top-level keys of the payload when no top-level key is
dollar-prefixed (replacement update), and the union over the top-level
keys other than `$v` of the keys of their sub-mappings when every
top-level key is dollar-prefixed (operator update), with `$v`
contributing nothing — all with set semantics. -/
theorem C1_update_fieldset (e : oplogEntry) (pub : Publication) (o : Option String)
    (hu : e.IsUpdate = true)
    (hp : processOplogEntry e = (some pub, o)) :
    ((∀ kv ∈ e.Data, strStartsWith kv.1 "$" = false) →
      pub.MsgFields.toFinset = (mapKeys e.Data).toFinset)
    ∧ ((∀ kv ∈ e.Data, strStartsWith kv.1 "$" = true) →
      pub.MsgFields.toFinset = operatorUpdateKeys e.Data) := by
  obtain ⟨-, -, hfi, -, -, -⟩ := processOplogEntry_pub e pub o hp
  have hop : e.Operation = "u" := by
    have := hu
    simp only [oplogEntry.IsUpdate, operationUpdate, beq_iff_eq] at this
    exact this
  have hcf : changedFields e = if updateIsReplace e.Data then mapKeys e.Data
      else fieldsForOperatorUpdate e.Data := by
    simp [changedFields, oplogEntry.IsInsert, oplogEntry.IsUpdate, hop,
      operationInsert, operationUpdate]
  constructor
  · intro hall
    have hrep : updateIsReplace e.Data = true := by
      simp only [updateIsReplace, List.all_eq_true]
      intro kv hkv
      simp [hall kv hkv]
    rw [hfi, hcf, if_pos hrep]
  · intro hall
    by_cases hnil : e.Data = []
    · rw [hfi, hcf, hnil]
      simp [updateIsReplace, mapKeys, operatorUpdateKeys]
    · obtain ⟨kv, rest, hd⟩ := List.exists_cons_of_ne_nil hnil
      have hd1 : strStartsWith kv.1 "$" = true :=
        hall kv (by rw [hd]; exact List.mem_cons_self kv rest)
      have hrep : updateIsReplace e.Data = false := by
        rw [hd]
        simp [updateIsReplace, hd1]
      rw [hfi, hcf, if_neg (by simp [hrep])]
      exact fieldsForOperatorUpdate_toFinset e.Data hall

/-- Witness for C1 at the `Non-replacement update` vector of
`processor_test.go`: the emitted field set is the union of the `$set`
and `$unset` keys, with `$v` contributing nothing. -/
theorem C1_witness :
    opUpdateSamplePub.MsgFields.toFinset = operatorUpdateKeys opUpdateSample.Data :=
  (C1_update_fieldset opUpdateSample opUpdateSamplePub none rfl rfl).2 (by decide)

lemma hexDigit_lower : ∀ n, n < 16 → isLowerHexDigit (hexDigit n) = true := by decide

lemma oidHex_cons (b : Nat) (rest : List Nat) :
    oidHex (b :: rest) = String.mk (hexByteChars b ++ ((rest.map hexByteChars).flatten)) := rfl

lemma oidHex_length (bytes : List Nat) : (oidHex bytes).length = 2 * bytes.length := by
  induction bytes with
  | nil => rfl
  | cons b rest ih =>
    have h : (oidHex (b :: rest)).length
        = (hexByteChars b).length + (oidHex rest).length := by
      rw [oidHex_cons]
      show (hexByteChars b ++ (rest.map hexByteChars).flatten).length
        = (hexByteChars b).length + ((rest.map hexByteChars).flatten).length
      exact List.length_append _ _
    rw [h, ih]
    simp [hexByteChars]
    omega

lemma oidHex_lowerHex (bytes : List Nat) :
    (oidHex bytes).toList.all isLowerHexDigit = true := by
  induction bytes with
  | nil => rfl
  | cons b rest ih =>
    rw [oidHex_cons]
    show (hexByteChars b ++ (rest.map hexByteChars).flatten).all isLowerHexDigit = true
    rw [List.all_append]
    refine Bool.and_eq_true_iff.mpr ⟨?_, ih⟩
    simp only [hexByteChars, List.all_cons, List.all_nil, Bool.and_true]
    exact Bool.and_eq_true_iff.mpr
      ⟨hexDigit_lower _ (Nat.mod_lt _ (by norm_num)),
       hexDigit_lower _ (Nat.mod_lt _ (by norm_num))⟩

/-- C6: every published change message carries a `d` mapping holding
exactly the one key `_id` — the raw string for a string id, and the
tagged mapping with the lowercase hex rendering for an object id (24
characters for a 12-byte id) — and the specific channel appends the
same stringification to the namespace after `::`. -/
theorem C6_id_encoding (e : oplogEntry) (pub : Publication) (o : Option String)
    (hp : processOplogEntry e = (some pub, o)) :
    (∀ s, e.DocID = some (BSONValue.str s) →
      pub.MsgDoc = [("_id", BSONValue.str s)]
      ∧ pub.SpecificChannel = e.Namespace ++ "::" ++ s)
    ∧ (∀ b, e.DocID = some (BSONValue.objectId b) →
      pub.MsgDoc = [("_id", BSONValue.doc
        [("$type", BSONValue.str "oid"), ("$value", BSONValue.str (oidHex b))])]
      ∧ pub.SpecificChannel = e.Namespace ++ "::" ++ oidHex b
      ∧ (b.length = 12 → (oidHex b).length = 24)
      ∧ (oidHex b).toList.all isLowerHexDigit = true) := by
  obtain ⟨-, -, -, -, hstr, hoid⟩ := processOplogEntry_pub e pub o hp
  constructor
  · intro s hs
    obtain ⟨h1, h2⟩ := hstr s hs
    exact ⟨h2, h1⟩
  · intro b hb
    obtain ⟨h1, h2⟩ := hoid b hb
    refine ⟨h2, h1, ?_, oidHex_lowerHex b⟩
    intro hlen
    rw [oidHex_length, hlen]

/-- Witness for C6 at the `ObjectID id` vector of `processor_test.go`:
the id `deadbeefdeadbeefdeadbeef` round-trips as a tagged 24-character
lowercase hex mapping and suffixes the specific channel. -/
theorem C6_witness :
    oidSamplePub.MsgDoc = [("_id", BSONValue.doc
      [("$type", BSONValue.str "oid"),
       ("$value", BSONValue.str "deadbeefdeadbeefdeadbeef")])]
    ∧ oidSamplePub.SpecificChannel = "foo.bar::deadbeefdeadbeefdeadbeef"
    ∧ (oidHex oidSampleBytes).length = 24 := by
  have h := (C6_id_encoding oidSampleEntry oidSamplePub none rfl).2 oidSampleBytes rfl
  exact ⟨h.1, h.2.1, h.2.2.1 rfl⟩

lemma drainCursor_cons (st : TailState) (e : rawOplogEntry) (rest : List rawOplogEntry) :
    drainCursor st (e :: rest) = drainCursor (stepEntry st e) rest := rfl

lemma drainCursor_out (es : List rawOplogEntry) : ∀ st : TailState,
    (drainCursor st es).out = st.out ++ es.filterMap pubOf := by
  induction es with
  | nil => intro st; simp [drainCursor]
  | cons e rest ih =>
    intro st
    rw [drainCursor_cons, ih]
    cases h : pubOf e <;> simp [stepEntry, h]

/-- C4: an entry whose document id is neither a string nor an object id
(and which the system-collection filter does not discard first) makes
the processor return the error `op.ID was not a string or ObjectID` and
no publication, and the inner processing loop of `tailOnce` still emits
the publications of the surrounding entries — a malformed entry does
not stop the stream. -/
theorem C4_unsupported_id (e : oplogEntry) (st : TailState)
    (xs ys : List rawOplogEntry) (raw : rawOplogEntry)
    (hid : unsupportedID e.DocID = true)
    (hsys : strStartsWith (collectionSegment e.Namespace) "system." = false) :
    processOplogEntry e = (none, some "op.ID was not a string or ObjectID")
    ∧ (parseRawOplogEntry raw = some e →
        pubOf raw = none
        ∧ (drainCursor st (xs ++ raw :: ys)).out
            = st.out ++ (xs.filterMap pubOf ++ ys.filterMap pubOf)) := by
  have herr : processOplogEntry e = (none, some "op.ID was not a string or ObjectID") := by
    unfold processOplogEntry
    rw [if_neg (by simp [hsys])]
    cases hd : e.DocID with
    | none => rfl
    | some v =>
      cases v with
      | str s => rw [hd] at hid; simp [unsupportedID] at hid
      | objectId b => rw [hd] at hid; simp [unsupportedID] at hid
      | null => rfl
      | bool b => rfl
      | int n => rfl
      | array elems => rfl
      | doc fields => rfl
  refine ⟨herr, ?_⟩
  intro hp
  have hnone : pubOf raw = none := by
    unfold pubOf processRawEntry
    rw [hp]
    show (processOplogEntry e).1 = none
    rw [herr]
  refine ⟨hnone, ?_⟩
  rw [drainCursor_out]
  simp [List.filterMap_append, List.filterMap_cons, hnone]

/-- Witness for C4: the integer-id entry of the `Unsupported id type`
vector, placed between two good inserts, errors without a publication
while both neighbours are still published. -/
theorem C4_witness :
    processOplogEntry badIdParsed = (none, some "op.ID was not a string or ObjectID")
    ∧ (drainCursor { lastTimestamp := 0, out := [] }
        [sampleRaw 1, badIdRaw, sampleRaw 2]).out
      = [sampleRawPub 1, sampleRawPub 2] := by
  have h := C4_unsupported_id badIdParsed { lastTimestamp := 0, out := [] }
    [sampleRaw 1] [sampleRaw 2] badIdRaw rfl rfl
  exact ⟨h.1, (h.2 rfl).2⟩

lemma drainCursor_lastTimestamp (es : List rawOplogEntry) : ∀ st : TailState,
    (drainCursor st es).lastTimestamp = lastTsOrD es st.lastTimestamp := by
  induction es with
  | nil => intro st; rfl
  | cons e rest ih =>
    intro st
    rw [drainCursor_cons, ih]
    rfl

lemma lastTsOrD_append (as bs : List rawOplogEntry) (d : Int) :
    lastTsOrD (as ++ bs) d = lastTsOrD bs (lastTsOrD as d) := by
  simp [lastTsOrD, List.foldl_append]

lemma lastTsOrD_eq_or_mem (es : List rawOplogEntry) : ∀ d : Int,
    lastTsOrD es d = d ∨ ∃ e ∈ es, lastTsOrD es d = e.Timestamp := by
  induction es with
  | nil => intro d; exact Or.inl rfl
  | cons e rest ih =>
    intro d
    have hcons : lastTsOrD (e :: rest) d = lastTsOrD rest e.Timestamp := rfl
    rcases ih e.Timestamp with h | ⟨y, hy, hyts⟩
    · exact Or.inr ⟨e, List.mem_cons_self e rest, by rw [hcons, h]⟩
    · exact Or.inr ⟨y, List.mem_cons_of_mem e hy, by rw [hcons, hyts]⟩

lemma lastTsOrD_ge (es : List rawOplogEntry) : ∀ (d : Int) (x : rawOplogEntry),
    x ∈ es →
    List.Pairwise (fun a b : rawOplogEntry => a.Timestamp ≤ b.Timestamp) es →
    x.Timestamp ≤ lastTsOrD es d := by
  induction es with
  | nil => intro d x hx _; exact absurd hx (List.not_mem_nil x)
  | cons e rest ih =>
    intro d x hx hp
    rw [List.pairwise_cons] at hp
    have hcons : lastTsOrD (e :: rest) d = lastTsOrD rest e.Timestamp := rfl
    rw [hcons]
    rcases List.mem_cons.mp hx with h | h
    · subst h
      rcases lastTsOrD_eq_or_mem rest x.Timestamp with he | ⟨y, hy, hyts⟩
      · rw [he]
      · rw [hyts]; exact hp.1 y hy
    · exact ih e.Timestamp x h hp.2

lemma runTailOnce_stop (stopA : Option Nat) (sessions : List CursorSession)
    (st : TailState) (y : Nat) (h : stopPending stopA y = true) :
    runTailOnce stopA sessions st y
      = { state := st, requeries := [], sessionsConsumed := 0,
          ending := TailOnceEnd.endedByStop } := by
  cases sessions <;> simp [runTailOnce, h]

lemma runTailOnce_cons_timeout (stopA : Option Nat) (s : CursorSession)
    (rest : List CursorSession) (st : TailState) (y : Nat)
    (hstop : stopPending stopA y = false)
    (hs : s.outcome = CursorOutcome.cursorTimeout) :
    runTailOnce stopA (s :: rest) st y
      = { state := (runTailOnce stopA rest (drainCursor st s.entries) (y + s.entries.length)).state,
          requeries := (runTailOnce stopA rest (drainCursor st s.entries) (y + s.entries.length)).requeries,
          sessionsConsumed :=
            (runTailOnce stopA rest (drainCursor st s.entries) (y + s.entries.length)).sessionsConsumed + 1,
          ending := (runTailOnce stopA rest (drainCursor st s.entries) (y + s.entries.length)).ending } := by
  obtain ⟨es, oc⟩ := s
  dsimp only at hs
  subst hs
  simp [runTailOnce, hstop]

lemma runTailOnce_cons_expiry (stopA : Option Nat) (s : CursorSession)
    (rest : List CursorSession) (st : TailState) (y : Nat)
    (hstop : stopPending stopA y = false)
    (hs : s.outcome = CursorOutcome.cursorExpiry) :
    runTailOnce stopA (s :: rest) st y
      = { state := (runTailOnce stopA rest (drainCursor st s.entries) (y + s.entries.length)).state,
          requeries := (drainCursor st s.entries).lastTimestamp
            :: (runTailOnce stopA rest (drainCursor st s.entries) (y + s.entries.length)).requeries,
          sessionsConsumed :=
            (runTailOnce stopA rest (drainCursor st s.entries) (y + s.entries.length)).sessionsConsumed + 1,
          ending := (runTailOnce stopA rest (drainCursor st s.entries) (y + s.entries.length)).ending } := by
  obtain ⟨es, oc⟩ := s
  dsimp only at hs
  subst hs
  simp [runTailOnce, hstop]

lemma runTailOnce_requeries_get (s : CursorSession) (post : List CursorSession)
    (hs : s.outcome = CursorOutcome.cursorExpiry) :
    ∀ (pre : List CursorSession) (st : TailState) (y : Nat),
    (∀ t ∈ pre, t.outcome ≠ CursorOutcome.cursorError) →
    (runTailOnce none (pre ++ s :: post) st y).requeries.get? (countExpiries pre)
      = some (lastTsOrD ((pre.map CursorSession.entries).flatten ++ s.entries) st.lastTimestamp) := by
  intro pre
  induction pre with
  | nil =>
    intro st y _
    rw [List.nil_append, runTailOnce_cons_expiry none s post st y rfl hs]
    simp [countExpiries, drainCursor_lastTimestamp]
  | cons t pre2 ih =>
    intro st y hpre
    have ht : t.outcome ≠ CursorOutcome.cursorError := hpre t (List.mem_cons_self t pre2)
    have hpre2 : ∀ u ∈ pre2, u.outcome ≠ CursorOutcome.cursorError :=
      fun u hu => hpre u (List.mem_cons_of_mem t hu)
    have hflat : ((t :: pre2).map CursorSession.entries).flatten ++ s.entries
        = t.entries ++ ((pre2.map CursorSession.entries).flatten ++ s.entries) := by
      simp [List.append_assoc]
    cases hoc : t.outcome with
    | cursorError => exact absurd hoc ht
    | cursorTimeout =>
      rw [List.cons_append, runTailOnce_cons_timeout none t (pre2 ++ s :: post) st y rfl hoc]
      have hce : countExpiries (t :: pre2) = countExpiries pre2 := by
        simp [countExpiries, List.filter_cons, hoc]
      dsimp only
      rw [hce, ih (drainCursor st t.entries) (y + t.entries.length) hpre2,
        drainCursor_lastTimestamp, hflat, lastTsOrD_append, lastTsOrD_append,
        lastTsOrD_append]
    | cursorExpiry =>
      rw [List.cons_append, runTailOnce_cons_expiry none t (pre2 ++ s :: post) st y rfl hoc]
      have hce : countExpiries (t :: pre2) = countExpiries pre2 + 1 := by
        simp [countExpiries, List.filter_cons, hoc]
      dsimp only
      rw [hce, List.get?_cons_succ,
        ih (drainCursor st t.entries) (y + t.entries.length) hpre2,
        drainCursor_lastTimestamp, hflat, lastTsOrD_append, lastTsOrD_append,
        lastTsOrD_append]

/-- Counterexample to C2: when the cursor of the initial `ts > 5` query
expires before yielding any entry, the strict lower bound of the re-issued query is the int64 zero value `0` (the Go zero value of the
`lastTimestamp` variable), not the original start timestamp `5` the
claim prescribes. -/
theorem C2_counterexample :
    tailOnceQueryBounds 5 none
      [{ entries := [], outcome := CursorOutcome.cursorExpiry },
       { entries := [], outcome := CursorOutcome.cursorError }] = [5, 0]
    ∧ (0 : Int) ≠ 5 :=
  ⟨rfl, by decide⟩

/-- C2 as amended: on cursor expiry (no iterator error, no timeout) the
reader re-issues the query with strict lower bound equal to the
timestamp of the most recent raw entry yielded by the iterator during
this `tailOnce` invocation, or the int64 zero value — not the original
start timestamp — when no entry has been yielded yet. -/
theorem C2_amended_requery (startTime : Int) (pre : List CursorSession) (s : CursorSession)
    (post : List CursorSession)
    (hs : s.outcome = CursorOutcome.cursorExpiry)
    (hpre : ∀ t ∈ pre, t.outcome ≠ CursorOutcome.cursorError) :
    (tailOnce startTime none (pre ++ s :: post)).requeries.get? (countExpiries pre)
      = some (lastTsOrD (consumedEntries pre s) 0) := by
  unfold tailOnce consumedEntries
  exact runTailOnce_requeries_get s post hs pre { lastTimestamp := 0, out := [] } 0 hpre

/-- Witness for the amended C2: after yielding one entry with timestamp
9, a cursor expiry re-queries with lower bound 9. -/
theorem C2_witness :
    (tailOnce 5 none
      [{ entries := [sampleRaw 9], outcome := CursorOutcome.cursorExpiry },
       { entries := [], outcome := CursorOutcome.cursorError }]).requeries.get? 0
      = some 9 :=
  C2_amended_requery 5 []
    { entries := [sampleRaw 9], outcome := CursorOutcome.cursorExpiry }
    [{ entries := [], outcome := CursorOutcome.cursorError }] rfl (by simp)

/-- C10: the requery position is advanced by every raw entry the
iterator yields — the classifier and processor run only afterwards, so
discarded entries advance it too — and therefore, when the yielded
timestamps are in oplog (non-decreasing) order, the re-issued strict
`ts >` query excludes every entry already consumed from the cursor. -/
theorem C10_requery_excludes_consumed (startTime : Int) (pre : List CursorSession)
    (s : CursorSession) (post : List CursorSession)
    (hs : s.outcome = CursorOutcome.cursorExpiry)
    (hpre : ∀ t ∈ pre, t.outcome ≠ CursorOutcome.cursorError)
    (hsorted : List.Pairwise (fun a b : rawOplogEntry => a.Timestamp ≤ b.Timestamp)
      (consumedEntries pre s)) :
    (tailOnce startTime none (pre ++ s :: post)).requeries.get? (countExpiries pre)
      = some (lastTsOrD (consumedEntries pre s) 0)
    ∧ ∀ e ∈ consumedEntries pre s, e.Timestamp ≤ lastTsOrD (consumedEntries pre s) 0 := by
  constructor
  · unfold tailOnce consumedEntries
    exact runTailOnce_requeries_get s post hs pre { lastTimestamp := 0, out := [] } 0 hpre
  · intro e he
    exact lastTsOrD_ge (consumedEntries pre s) 0 e he hsorted

/-- Witness for C10: a filtered-out and a published entry (timestamps 3
and 7) both advance the requery position; after expiry the bound is 7
and the consumed entry with timestamp 3 is excluded by `ts > 7`. -/
theorem C10_witness :
    (tailOnce 0 none
      [{ entries := [sampleRaw 3], outcome := CursorOutcome.cursorTimeout },
       { entries := [sampleRaw 7], outcome := CursorOutcome.cursorExpiry }]).requeries.get? 0
      = some 7
    ∧ (sampleRaw 3).Timestamp ≤ 7 := by
  have h := C10_requery_excludes_consumed 0
    [{ entries := [sampleRaw 3], outcome := CursorOutcome.cursorTimeout }]
    { entries := [sampleRaw 7], outcome := CursorOutcome.cursorExpiry } [] rfl
    (by intro t ht; rw [List.mem_singleton] at ht; subst ht; decide)
    (by
      show List.Pairwise _ [sampleRaw 3, sampleRaw 7]
      refine List.Pairwise.cons ?_ (List.pairwise_singleton _ _)
      intro b hb
      rw [List.mem_singleton] at hb
      subst hb
      decide)
  exact ⟨h.1, h.2 (sampleRaw 3) (List.mem_cons_self _ _)⟩

/-- Counterexample to C9: with the stop signal raised right after the
first yielded entry (`stopRaisedAfter = some 1`), the tailer still
fully processes and publishes the second entry of the current cursor
batch before the stop is observed at the next top of the polling loop —
it does not finish only the work of the current entry; the stop check sits
between cursor drains, not between entries. -/
theorem C9_counterexample :
    (tailOnce 0 (some 1)
      [{ entries := [sampleRaw 1, sampleRaw 2], outcome := CursorOutcome.cursorTimeout },
       { entries := [], outcome := CursorOutcome.cursorError }]).state.out
      = [sampleRawPub 1, sampleRawPub 2]
    ∧ (tailOnce 0 (some 1)
      [{ entries := [sampleRaw 1, sampleRaw 2], outcome := CursorOutcome.cursorTimeout },
       { entries := [], outcome := CursorOutcome.cursorError }]).ending
      = TailOnceEnd.endedByStop
    ∧ (tailOnce 0 (some 1)
      [{ entries := [sampleRaw 1, sampleRaw 2], outcome := CursorOutcome.cursorTimeout },
       { entries := [], outcome := CursorOutcome.cursorError }]).sessionsConsumed = 1 :=
  ⟨rfl, rfl, rfl⟩

/-- C9 as amended: the stop token is observed at the top of the cursor
polling loop (between cursor drains) and before any retry: once the
stop is pending at a loop top, `tailOnce` returns immediately — no
further cursor iteration is consumed, no query is re-issued, nothing
more is published — with the stop ending, and the `Tail` retry loop
(whose `wasStopped` flag was set before the stop was delivered) then
exits cleanly without the one-second retry sleep. -/
theorem C9_amended_stop (stopA : Option Nat) (sessions : List CursorSession)
    (st : TailState) (y : Nat) (h : stopPending stopA y = true) :
    runTailOnce stopA sessions st y
      = { state := st, requeries := [], sessionsConsumed := 0,
          ending := TailOnceEnd.endedByStop }
    ∧ afterTailOnce true = TailAction.exitClean :=
  ⟨runTailOnce_stop stopA sessions st y h, rfl⟩

/-- Witness for the amended C9: with the stop already pending, a
pending cursor session is never consumed and the retry loop exits
without sleeping. -/
theorem C9_witness :
    runTailOnce (some 0)
      [{ entries := [sampleRaw 1], outcome := CursorOutcome.cursorTimeout }]
      { lastTimestamp := 0, out := [] } 0
      = { state := { lastTimestamp := 0, out := [] }, requeries := [],
          sessionsConsumed := 0, ending := TailOnceEnd.endedByStop }
    ∧ afterTailOnce true = TailAction.exitClean :=
  C9_amended_stop (some 0)
    [{ entries := [sampleRaw 1], outcome := CursorOutcome.cursorTimeout }]
    { lastTimestamp := 0, out := [] } 0 (by decide)
